import Mathlib

/-!
Shallow embedding of the PDF tool's document-mutation and redaction pipeline.

The definitions below are translated from the repository's JavaScript sources:

* `src/pdf-operations.js` (`loadPDFDocument`, `rotatePage`, `deletePages`,
  `extractPages`, `mergePDFs`, `splitPDF`, `replacePageWithImage`, ...);
* `src/redaction.js` (`renderPageToCanvas`, `applyRedactionBoxesToCanvas`,
  `canvasToImageBytes`, `applyRedactionToPage`, `applyRedactions`,
  `validateRedactionBoxes`);
* `popup/popup.js` (`handleDeletePage`);
* `src/viewer.js` (the lazy render scheduler: `queueRender`,
  `processRenderQueue`, `renderPage` completion, `refresh`).

JavaScript numbers are modelled as rationals (every arithmetic operation the
embedded code performs on coordinates is exact on the values of interest), page
indices as naturals, and promise rejection as `Option`/error results.
-/

/-- Axis-aligned rectangle, as used for redaction boxes and canvas
`fillRect` calls.  Coordinates and extents are JS numbers, modelled as `ℚ`. -/
structure Box where
  x : ℚ
  y : ℚ
  width : ℚ
  height : ℚ
deriving DecidableEq, Inhabited

/-- Raster image encodings the tool passes around: `canvas.toBlob` produces
PNG (`image/png`); `replacePageWithImage` additionally accepts JPEG. -/
inductive ImageFormat where
  | png
  | jpeg
deriving DecidableEq, Inhabited

/-- An HTML canvas after the redaction pipeline has drawn on it: its pixel
dimensions, the opaque rasterized page pixels produced by the raster engine
(PDF.js `page.render`, modelled as an opaque identifier `raster`), and the
list of opaque rectangles later filled on top of that raster. -/
structure Canvas where
  width : ℚ
  height : ℚ
  raster : Nat
  painted : List Box
deriving DecidableEq, Inhabited

/-- Encoded image bytes (the result of `canvas.toBlob`): the bitmap content
together with the encoding chosen. -/
structure EncodedImage where
  bitmap : Canvas
  format : ImageFormat
deriving DecidableEq, Inhabited

/-- One object of a page's content stream: either a full image draw placed by
`page.drawImage`, or one of the page's pre-existing (vector/text) objects,
opaque to this development. -/
inductive ContentObject where
  | imageDraw (image : EncodedImage) (x y width height : ℚ)
  | original (id : Nat)
deriving DecidableEq, Inhabited

/-- A page of the PDF-lib document model: declared media-box size, absolute
rotation angle, and its content stream. -/
structure Page where
  width : ℚ
  height : ℚ
  rotation : ℤ
  content : List ContentObject
deriving DecidableEq, Inhabited

/-- The PDF-lib `PDFDocument`: an ordered list of pages. -/
structure PDFDocument where
  pages : List Page
deriving DecidableEq, Inhabited

/-- A PDF.js page handle as consumed by the redaction renderer: the page's
1:1-scale viewport dimensions and the opaque raster the engine would produce
for it. -/
structure PdfJsPage where
  width : ℚ
  height : ℚ
  raster : Nat
deriving DecidableEq, Inhabited

/-- Errors surfaced by document loading (spec taxonomy `MalformedDocument`
and `UnsupportedDocument`). -/
inductive LoadError where
  | malformedDocument
  | unsupportedDocument
deriving DecidableEq, Inhabited

/-- Raw bytes handed to the loader, abstracted to the two properties the
loader inspects: whether they parse, whether they are encrypted, and the
pages they encode. -/
structure PDFBytes where
  wellFormed : Bool
  encrypted : Bool
  pages : List Page
deriving DecidableEq, Inhabited

/-- Modelled from the spec: the external document-model engine primitive
`PDFLib.PDFDocument.load(data, options)` (pdf-lib itself is not part of
`src/`).  Per pdf-lib's documented behaviour it rejects unparsable bytes,
rejects encrypted bytes unless the `ignoreEncryption` option is set, and
otherwise returns the parsed document. -/
def pdfLibLoad (data : PDFBytes) (ignoreEncryption : Bool) :
    Except LoadError PDFDocument :=
  if ¬data.wellFormed then .error .malformedDocument
  else if data.encrypted ∧ ¬ignoreEncryption then .error .unsupportedDocument
  else .ok ⟨data.pages⟩

/-- `loadPDFDocument(data)` from `src/pdf-operations.js`: calls
`PDFLib.PDFDocument.load(data, { ignoreEncryption: true })`. -/
def loadPDFDocument (data : PDFBytes) : Except LoadError PDFDocument :=
  pdfLibLoad data true

/-- `rotatePage(pdfDoc, pageIndex, degrees)` from `src/pdf-operations.js`:
reads the page's current absolute rotation and sets
`(currentRotation + degrees + 360) % 360`, where `%` is the JS remainder
(truncating, `Int.tmod`).  `getPage` throws on an invalid index, modelled as
`none`. -/
def rotatePage (pdfDoc : PDFDocument) (pageIndex : Nat) (degrees : ℤ) :
    Option PDFDocument :=
  match pdfDoc.pages[pageIndex]? with
  | none => none
  | some page =>
      let newRotation := Int.tmod (page.rotation + degrees + 360) 360
      some ⟨pdfDoc.pages.set pageIndex { page with rotation := newRotation }⟩

/-- The loop body of `deletePages`: `pdfDoc.removePage(index)` guarded by
`index >= 0 && index < pdfDoc.getPageCount()` (the lower bound is vacuous for
`Nat` indices), executed once per index of the descending-sorted list. -/
def deletePagesGo (pdfDoc : PDFDocument) : List Nat → PDFDocument
  | [] => pdfDoc
  | index :: rest =>
      deletePagesGo
        (if index < pdfDoc.pages.length then ⟨pdfDoc.pages.eraseIdx index⟩
         else pdfDoc) rest

/-- `deletePages(pdfDoc, pageIndices)` from `src/pdf-operations.js`: sorts the
requested indices in descending order (`sort((a, b) => b - a)`) and removes
each index that is in range at the time of its removal. -/
def deletePages (pdfDoc : PDFDocument) (pageIndices : List Nat) : PDFDocument :=
  deletePagesGo pdfDoc (List.insertionSort (· ≥ ·) pageIndices)

/-- `handleDeletePage(pageIndex)` from `popup/popup.js`: refuses to delete when
only one page remains (alerting `Cannot delete the last page`), otherwise
delegates to `deletePages` with the single index.  The user-confirmation
dialog is elided (we model the confirmed path). -/
def handleDeletePage (pdfDoc : PDFDocument) (pageIndex : Nat) : PDFDocument :=
  if pdfDoc.pages.length ≤ 1 then pdfDoc
  else deletePages pdfDoc [pageIndex]

/-- Sequencing of a fallible step over a list (the `await` inside each of the
copy loops): stops at the first failure, otherwise collects the results in
order. -/
def mapOption {α β : Type} (f : α → Option β) : List α → Option (List β)
  | [] => some []
  | a :: t =>
      match f a with
      | none => none
      | some b => (mapOption f t).map (b :: ·)

/-- `newPdfDoc.copyPages(pdfDoc, indices)`: value-copies the page at each
requested index; pdf-lib throws on an out-of-range index, modelled as
`none`. -/
def copyPages (pdfDoc : PDFDocument) (indices : List Nat) :
    Option (List Page) :=
  mapOption (fun i => pdfDoc.pages[i]?) indices

/-- `extractPages(pdfDoc, pageIndices)` from `src/pdf-operations.js`: sorts
the requested indices ascending (`sort((a, b) => a - b)`), copies those pages
into a fresh document and adds them in that (sorted) order. -/
def extractPages (pdfDoc : PDFDocument) (pageIndices : List Nat) :
    Option PDFDocument :=
  (copyPages pdfDoc (List.insertionSort (· ≤ ·) pageIndices)).map PDFDocument.mk

/-- `mergePDFs(pdfDocs)` from `src/pdf-operations.js`: for each input document
in order, copies all of its pages (`indices = [0 .. pageCount)`) into the
fresh merged document and appends them. -/
def mergePDFs (pdfDocs : List PDFDocument) : Option PDFDocument :=
  (mapOption (fun d => copyPages d (List.range d.pages.length)) pdfDocs).map
    (fun copied => ⟨copied.flatten⟩)

/-- `splitPDF(pdfDoc)` from `src/pdf-operations.js`: for each page index `i`,
copies page `i` alone into a fresh single-page document; returns the list of
these documents in page order. -/
def splitPDF (pdfDoc : PDFDocument) : Option (List PDFDocument) :=
  mapOption (fun i => (copyPages pdfDoc [i]).map PDFDocument.mk)
    (List.range pdfDoc.pages.length)

/-- `pdfDoc.embedPng(imageBytes)`: pdf-lib rejects bytes that are not PNG. -/
def embedPng (image : EncodedImage) : Option EncodedImage :=
  if image.format = .png then some image else none

/-- `pdfDoc.embedJpg(imageBytes)`: pdf-lib rejects bytes that are not JPEG. -/
def embedJpg (image : EncodedImage) : Option EncodedImage :=
  if image.format = .jpeg then some image else none

/-- `replacePageWithImage(pdfDoc, pageIndex, imageBytes, imageType)` from
`src/pdf-operations.js`: reads the page's declared size, embeds the image
(PNG when `imageType === 'png'`, otherwise JPEG), removes the original page,
inserts a fresh page of the same `[width, height]` at the same index
(a freshly inserted pdf-lib page has rotation 0 and empty content), and draws
the embedded image over the whole page (`x: 0, y: 0, width, height`). -/
def replacePageWithImage (pdfDoc : PDFDocument) (pageIndex : Nat)
    (image : EncodedImage) (imageType : ImageFormat) : Option PDFDocument :=
  match pdfDoc.pages[pageIndex]? with
  | none => none
  | some page =>
      match (if imageType = .png then embedPng image else embedJpg image) with
      | none => none
      | some embeddedImage =>
          let newPage : Page :=
            { width := page.width, height := page.height, rotation := 0,
              content :=
                [.imageDraw embeddedImage 0 0 page.width page.height] }
          some ⟨(pdfDoc.pages.eraseIdx pageIndex).insertIdx pageIndex newPage⟩

/-- `RENDER_SCALE` from `src/redaction.js`. -/
def RENDER_SCALE : ℚ := 2.5

/-- `renderPageToCanvas(pdfJsPage, scale)` from `src/redaction.js`: creates a
canvas with the scaled viewport dimensions and renders the page's pixels onto
it (no boxes painted yet). -/
def renderPageToCanvas (pdfJsPage : PdfJsPage) (scale : ℚ) : Canvas :=
  { width := pdfJsPage.width * scale, height := pdfJsPage.height * scale,
    raster := pdfJsPage.raster, painted := [] }

/-- One `ctx.fillRect(box.x * scale, box.y * scale, box.width * scale,
box.height * scale)` call of `applyRedactionBoxesToCanvas`. -/
def scaleBox (scale : ℚ) (box : Box) : Box :=
  ⟨box.x * scale, box.y * scale, box.width * scale, box.height * scale⟩

/-- `applyRedactionBoxesToCanvas(canvas, boxes, scale)` from
`src/redaction.js`: fills one opaque black rectangle per box at the
scale-converted coordinates. -/
def applyRedactionBoxesToCanvas (canvas : Canvas) (boxes : List Box)
    (scale : ℚ) : Canvas :=
  { canvas with painted := canvas.painted ++ boxes.map (scaleBox scale) }

/-- `canvasToImageBytes(canvas)` from `src/redaction.js`: encodes the canvas
via `canvas.toBlob(..., 'image/png')`. -/
def canvasToImageBytes (canvas : Canvas) : EncodedImage :=
  { bitmap := canvas, format := .png }

/-- `applyRedactionToPage(pdfDoc, pdfJsPage, pageIndex, boxes)` from
`src/redaction.js`: returns the document unchanged when the box list is
empty; otherwise renders the page at `RENDER_SCALE`, paints the boxes,
encodes the canvas as PNG and replaces the page with the image. -/
def applyRedactionToPage (pdfDoc : PDFDocument) (pdfJsPage : PdfJsPage)
    (pageIndex : Nat) (boxes : List Box) : Option PDFDocument :=
  if boxes.isEmpty then some pdfDoc
  else
    let canvas := renderPageToCanvas pdfJsPage RENDER_SCALE
    let canvas := applyRedactionBoxesToCanvas canvas boxes RENDER_SCALE
    let imageBytes := canvasToImageBytes canvas
    replacePageWithImage pdfDoc pageIndex imageBytes .png

/-- `redactionsByPage[pageIndex]` lookup on the page-to-boxes map, as an
association list (a JS object has at most one entry per key). -/
def boxesFor (redactionsByPage : List (Nat × List Box)) (pageIndex : Nat) :
    List Box :=
  (((redactionsByPage.find? (fun e => e.fst = pageIndex)).map Prod.snd).getD [])

/-- The body of the descending loop of `applyRedactions`, with a failure
oracle: `rasterOk i = false` means the raster-engine call for page `i`
rejects (PDF.js `render` failure), which rejects the whole `async` function
before that page's document mutation.  On rejection the document state built
so far is what the caller observes (the pdf-lib document is mutated in
place), paired with the index whose processing failed. -/
def applyRedactionsGo (rasterOk : Nat → Bool) (pdfJsPages : Nat → PdfJsPage)
    (redactionsByPage : List (Nat × List Box)) (pdfDoc : PDFDocument) :
    List Nat → PDFDocument × Option Nat
  | [] => (pdfDoc, none)
  | pageIndex :: rest =>
      let boxes := boxesFor redactionsByPage pageIndex
      if boxes.isEmpty then
        applyRedactionsGo rasterOk pdfJsPages redactionsByPage pdfDoc rest
      else if rasterOk pageIndex then
        match applyRedactionToPage pdfDoc (pdfJsPages pageIndex) pageIndex
            boxes with
        | some pdfDoc2 =>
            applyRedactionsGo rasterOk pdfJsPages redactionsByPage pdfDoc2 rest
        | none => (pdfDoc, some pageIndex)
      else (pdfDoc, some pageIndex)

/-- `applyRedactions(pdfDoc, pdfJsDoc, redactionsByPage, onProgress)` from
`src/redaction.js`: collects the keys of the map, sorts them ascending
(`sort((a, b) => a - b)`), and processes them in reverse (descending) order
to avoid index shifting; each page with a non-empty box list is redacted via
`applyRedactionToPage`.  There is no per-page `try`/`catch`: the first
rejection rejects the whole call. -/
def applyRedactions (rasterOk : Nat → Bool) (pdfJsPages : Nat → PdfJsPage)
    (pdfDoc : PDFDocument) (redactionsByPage : List (Nat × List Box)) :
    PDFDocument × Option Nat :=
  let pageIndices :=
    List.insertionSort (· ≤ ·) (redactionsByPage.map Prod.fst)
  applyRedactionsGo rasterOk pdfJsPages redactionsByPage pdfDoc
    pageIndices.reverse

/-- The clamping step applied to one box by `validateRedactionBoxes`
(`src/redaction.js`): `x = max(0, box.x)`, `y = max(0, box.y)`,
`width = min(box.width, pageWidth - x)`,
`height = min(box.height, pageHeight - y)`. -/
def clampBox (box : Box) (pageWidth pageHeight : ℚ) : Box :=
  let x := max 0 box.x
  let y := max 0 box.y
  let width := min box.width (pageWidth - x)
  let height := min box.height (pageHeight - y)
  ⟨x, y, width, height⟩

/-- `validateRedactionBoxes(boxes, pageWidth, pageHeight)` from
`src/redaction.js`: drops boxes without positive area, clamps the remaining
boxes, and drops any clamped box left without positive area.  (No caller in
the repository invokes this function.) -/
def validateRedactionBoxes (boxes : List Box) (pageWidth pageHeight : ℚ) :
    List Box :=
  ((boxes.filter (fun box =>
      decide (0 < box.width) && decide (0 < box.height))).map
    (fun box => clampBox box pageWidth pageHeight)).filter
    (fun box => decide (0 < box.width) && decide (0 < box.height))

/-- Modelled from the spec: the geometric intersection of a box with the page
rectangle `[0, pageWidth] × [0, pageHeight]` — what the claim says the
validated boxes equal.  Stated for comparison with `clampBox`. -/
def clipToPageSpec (box : Box) (pageWidth pageHeight : ℚ) : Box :=
  let x1 := max 0 box.x
  let y1 := max 0 box.y
  let x2 := min pageWidth (box.x + box.width)
  let y2 := min pageHeight (box.y + box.height)
  ⟨x1, y1, x2 - x1, y2 - y1⟩

/-- The render scheduler's state (`src/viewer.js`): the set of pages already
rendered, the FIFO work queue, the single-flight flag, the pending
`renderPage` continuation (page index paired with the document revision its
pixels belong to — the revision is the spec's ghost counter; the source
stores no revision in the job), and the current document revision (advanced
whenever `refresh` installs a mutated document). -/
structure ViewerState where
  renderedPages : List Nat
  renderQueue : List Nat
  isRendering : Bool
  inflight : Option (Nat × Nat)
  docRevision : Nat
deriving DecidableEq, Inhabited

/-- The queue-draining loop reached from `processRenderQueue`: pops the head
of the queue; `renderPage` resolves immediately for an already-rendered page
(so draining continues), otherwise the raster job for that page starts
(single-flight: `isRendering = true`, the continuation is recorded with the
current revision). -/
def processRenderQueueGo (s : ViewerState) : List Nat → ViewerState
  | [] => { s with renderQueue := [] }
  | pageIndex :: rest =>
      if pageIndex ∈ s.renderedPages then processRenderQueueGo s rest
      else
        { s with
          renderQueue := rest
          isRendering := true
          inflight := some (pageIndex, s.docRevision) }

/-- `processRenderQueue()` from `src/viewer.js`: returns immediately when a
render is already in flight or the queue is empty; otherwise shifts the queue
and starts rendering. -/
def processRenderQueue (s : ViewerState) : ViewerState :=
  if s.isRendering then s else processRenderQueueGo s s.renderQueue

/-- `queueRender(pageIndex)` from `src/viewer.js`: skips pages already
rendered or already queued, otherwise pushes the page and processes the
queue. -/
def queueRender (s : ViewerState) (pageIndex : Nat) : ViewerState :=
  if pageIndex ∈ s.renderedPages then s
  else if pageIndex ∈ s.renderQueue then s
  else processRenderQueue { s with renderQueue := s.renderQueue ++ [pageIndex] }

/-- `refresh(pdfJsDoc)` from `src/viewer.js`, called after every document
mutation: installs the new document (ghost revision + 1), clears
`renderedPages` and the queue, rebuilds the page placeholders, and re-queues
the currently visible pages (`renderVisiblePages`, modelled by the `visible`
list).  An in-flight render job is not cancelled. -/
def refresh (s : ViewerState) (visible : List Nat) : ViewerState :=
  visible.foldl queueRender
    { s with
      renderedPages := []
      renderQueue := []
      docRevision := s.docRevision + 1 }

/-- Completion of the in-flight `renderPage` promise (`src/viewer.js`): the
final `.then` adds the page to `renderedPages` unconditionally — nothing
compares the job against the current document — and the `.then` in
`processRenderQueue` clears the single-flight flag and drains the queue. -/
def completeRender (s : ViewerState) : ViewerState :=
  match s.inflight with
  | none => s
  | some (pageIndex, _jobRevision) =>
      processRenderQueue
        { s with
          renderedPages := pageIndex :: s.renderedPages
          isRendering := false
          inflight := none }

/-! ### Concrete fixtures used by witnesses and counterexamples -/

/-- A US-letter page carrying one opaque original content object. -/
def pageA : Page := ⟨612, 792, 0, [.original 0]⟩

/-- A second distinct page. -/
def pageB : Page := ⟨612, 792, 0, [.original 1]⟩

/-- A third distinct page. -/
def pageC : Page := ⟨612, 792, 0, [.original 2]⟩

/-- A page whose current absolute rotation is 90 degrees. -/
def pageRot90 : Page := ⟨100, 200, 90, [.original 5]⟩

/-- A three-page document. -/
def docABC : PDFDocument := ⟨[pageA, pageB, pageC]⟩

/-- A concrete redaction box. -/
def box1 : Box := ⟨10, 10, 50, 20⟩

/-- A PDF.js handle for a US-letter page. -/
def pjsLetter : PdfJsPage := ⟨612, 792, 0⟩

/-- The scheduler's initial state: nothing rendered, nothing queued. -/
def initViewer : ViewerState := ⟨[], [], false, none, 0⟩

/-! ### General-purpose helper lemmas -/

theorem mapOption_eq_some_map {α β : Type} (f : α → Option β) (g : α → β) :
    ∀ l : List α, (∀ a ∈ l, f a = some (g a)) →
      mapOption f l = some (l.map g) := by
  intro l
  induction l with
  | nil => intro _; rfl
  | cons a t ih =>
      intro h
      have ha := h a (List.mem_cons_self a t)
      have ht := ih (fun b hb => h b (List.mem_cons_of_mem a hb))
      simp [mapOption, ha, ht]

theorem range_map_getD {α : Type} [Inhabited α] (l : List α) :
    (List.range l.length).map (fun i => l.getD i default) = l := by
  induction l with
  | nil => rfl
  | cons a t ih =>
      rw [List.length_cons, List.range_succ_eq_map]
      simp only [List.map_cons, List.map_map]
      simp only [List.getD_cons_zero, List.getD_cons_succ, Function.comp]
      exact congrArg (a :: ·) ih

theorem flatten_map_singleton {α : Type} (l : List α) :
    (l.map (fun a => [a])).flatten = l := by
  induction l with
  | nil => rfl
  | cons a t ih => simp [ih]

theorem eraseIdx_insertIdx_eq_set {α : Type} :
    ∀ (l : List α) (i : Nat) (x : α), i < l.length →
      (l.eraseIdx i).insertIdx i x = l.set i x := by
  intro l
  induction l with
  | nil => intro i x h; simp at h
  | cons a t ih =>
      intro i x h
      cases i with
      | zero => rfl
      | succ n =>
          have hn : n < t.length := by simpa using h
          show ((a :: t).eraseIdx (n + 1)).insertIdx (n + 1) x =
            (a :: t).set (n + 1) x
          rw [List.eraseIdx_cons_succ, List.insertIdx_succ_cons,
            List.set_cons_succ, ih n x hn]

/-! ### C6: rotation composition -/

theorem tmod_rotation_comp (c d1 d2 : ℤ)
    (hc : c = 0 ∨ c = 90 ∨ c = 180 ∨ c = 270)
    (h1 : d1 = -90 ∨ d1 = 90 ∨ d1 = 180)
    (h2 : d2 = -90 ∨ d2 = 90 ∨ d2 = 180) :
    Int.tmod (Int.tmod (c + d1 + 360) 360 + d2 + 360) 360 =
      Int.tmod (c + (d1 + d2) % 360 + 360) 360 := by
  rcases hc with rfl | rfl | rfl | rfl <;>
    rcases h1 with rfl | rfl | rfl <;>
    rcases h2 with rfl | rfl | rfl <;> decide

/-- C6: for a page whose current rotation is one of 0/90/180/270 and deltas
d1, d2 ∈ {−90, 90, 180}, rotating by d1 and then by d2 produces the same
document as rotating once by (d1 + d2) mod 360. -/
theorem rotatePage_composition (doc : PDFDocument) (i : Nat) (page : Page)
    (d1 d2 : ℤ) (hget : doc.pages[i]? = some page)
    (hc : page.rotation = 0 ∨ page.rotation = 90 ∨ page.rotation = 180 ∨
      page.rotation = 270)
    (h1 : d1 = -90 ∨ d1 = 90 ∨ d1 = 180)
    (h2 : d2 = -90 ∨ d2 = 90 ∨ d2 = 180) :
    (rotatePage doc i d1).bind (fun d => rotatePage d i d2) =
      rotatePage doc i ((d1 + d2) % 360) := by
  have hlen : i < doc.pages.length := by
    rcases List.getElem?_eq_some_iff.mp hget with ⟨h, _⟩
    exact h
  have hset :
      (doc.pages.set i
        { page with rotation := Int.tmod (page.rotation + d1 + 360) 360 })[i]? =
      some { page with rotation := Int.tmod (page.rotation + d1 + 360) 360 } :=
    List.getElem?_set_self (by simpa using hlen)
  simp only [rotatePage, hget, Option.some_bind, hset, List.set_set]
  rw [tmod_rotation_comp page.rotation d1 d2 hc h1 h2]

/-- Witness for C6 at a concrete one-page document with rotation 90,
d1 = −90, d2 = 180. -/
theorem rotatePage_composition_witness :
    (rotatePage ⟨[pageRot90]⟩ 0 (-90)).bind (fun d => rotatePage d 0 180) =
      rotatePage ⟨[pageRot90]⟩ 0 ((-90 + 180) % 360) :=
  rotatePage_composition ⟨[pageRot90]⟩ 0 pageRot90 (-90) 180 rfl
    (by right; left; rfl) (by left; rfl) (by right; right; rfl)

/-! ### C7: split(all) then merge reproduces the document -/

theorem copyPages_range (pdfDoc : PDFDocument) :
    copyPages pdfDoc (List.range pdfDoc.pages.length) = some pdfDoc.pages := by
  have h := mapOption_eq_some_map (fun i => pdfDoc.pages[i]?)
    (fun i => pdfDoc.pages.getD i default) (List.range pdfDoc.pages.length)
    (by
      intro i hi
      have hlen : i < pdfDoc.pages.length := List.mem_range.mp hi
      show pdfDoc.pages[i]? = some (pdfDoc.pages.getD i default)
      rw [List.getElem?_eq_getElem hlen, List.getD_eq_getElem _ _ hlen])
  rw [copyPages, h, range_map_getD]

theorem splitPDF_eq (pdfDoc : PDFDocument) :
    splitPDF pdfDoc =
      some (pdfDoc.pages.map (fun p => PDFDocument.mk [p])) := by
  have h := mapOption_eq_some_map
    (fun i => (copyPages pdfDoc [i]).map PDFDocument.mk)
    (fun i => PDFDocument.mk [pdfDoc.pages.getD i default])
    (List.range pdfDoc.pages.length)
    (by
      intro i hi
      have hlen : i < pdfDoc.pages.length := List.mem_range.mp hi
      show (copyPages pdfDoc [i]).map PDFDocument.mk =
        some (PDFDocument.mk [pdfDoc.pages.getD i default])
      simp [copyPages, mapOption, List.getElem?_eq_getElem hlen,
        List.getD_eq_getElem _ _ hlen])
  rw [splitPDF, h]
  congr 1
  conv_rhs => rw [← range_map_getD pdfDoc.pages]
  rw [List.map_map]
  rfl

/-- C7: splitting a document into single-page documents (one per page, in
page order) and merging the results in order yields a document with the same
pages, hence the same page count and page order. -/
theorem split_all_merge_roundtrip (pdfDoc : PDFDocument) :
    (splitPDF pdfDoc).bind mergePDFs = some pdfDoc := by
  rw [splitPDF_eq, Option.some_bind, mergePDFs]
  have h := mapOption_eq_some_map
    (fun d => copyPages d (List.range d.pages.length))
    (fun d => d.pages)
    (pdfDoc.pages.map (fun p => PDFDocument.mk [p]))
    (fun d _ => copyPages_range d)
  rw [h]
  show some ⟨((pdfDoc.pages.map (fun p => PDFDocument.mk [p])).map
    (fun d => d.pages)).flatten⟩ = some pdfDoc
  rw [List.map_map]
  show some ⟨(pdfDoc.pages.map (fun p => [p])).flatten⟩ = some pdfDoc
  rw [flatten_map_singleton]

/-! ### C10 and C1: page replacement and redaction flattening -/

theorem replacePageWithImage_eq (pdfDoc : PDFDocument) (pageIndex : Nat)
    (image : EncodedImage) (imageType : ImageFormat) (page : Page)
    (hget : pdfDoc.pages[pageIndex]? = some page)
    (hfmt : image.format = imageType) :
    replacePageWithImage pdfDoc pageIndex image imageType =
      some ⟨pdfDoc.pages.set pageIndex
        ⟨page.width, page.height, 0,
          [.imageDraw image 0 0 page.width page.height]⟩⟩ := by
  have hlen : pageIndex < pdfDoc.pages.length := by
    rcases List.getElem?_eq_some_iff.mp hget with ⟨h, _⟩
    exact h
  cases imageType with
  | png =>
      simp [replacePageWithImage, hget, embedPng, hfmt,
        eraseIdx_insertIdx_eq_set _ _ _ hlen]
  | jpeg =>
      simp [replacePageWithImage, hget, embedPng, embedJpg, hfmt,
        eraseIdx_insertIdx_eq_set _ _ _ hlen]

/-- C10: `replacePageWithImage` rebuilds the page from only its original
width and height: the replacement page keeps the declared size but has
rotation 0, whatever the original rotation was (e.g. 90/180/270); all other
pages are untouched. -/
theorem replacePageWithImage_resets_rotation (pdfDoc : PDFDocument)
    (pageIndex : Nat) (image : EncodedImage) (imageType : ImageFormat)
    (page : Page) (hget : pdfDoc.pages[pageIndex]? = some page)
    (hfmt : image.format = imageType) :
    ∃ pdfDoc2,
      replacePageWithImage pdfDoc pageIndex image imageType = some pdfDoc2 ∧
      pdfDoc2.pages[pageIndex]? =
        some ⟨page.width, page.height, 0,
          [.imageDraw image 0 0 page.width page.height]⟩ ∧
      (∀ q, pdfDoc2.pages[pageIndex]? = some q →
        q.rotation = 0 ∧ q.width = page.width ∧ q.height = page.height) ∧
      (∀ j, j ≠ pageIndex → pdfDoc2.pages[j]? = pdfDoc.pages[j]?) := by
  have hlen : pageIndex < pdfDoc.pages.length := by
    rcases List.getElem?_eq_some_iff.mp hget with ⟨h, _⟩
    exact h
  refine ⟨_, replacePageWithImage_eq pdfDoc pageIndex image imageType page
    hget hfmt, ?_, ?_, ?_⟩
  · exact List.getElem?_set_self (by simpa using hlen)
  · intro q hq
    rw [List.getElem?_set_self (by simpa using hlen)] at hq
    cases hq
    exact ⟨rfl, rfl, rfl⟩
  · intro j hj
    exact List.getElem?_set_ne (fun h => hj h.symm)

/-- Witness for C10: replacing the single page of a document whose page has
rotation 90 yields a page with rotation 0 and the same 100 × 200 size. -/
theorem replacePageWithImage_resets_rotation_witness :
    ∃ pdfDoc2,
      replacePageWithImage ⟨[pageRot90]⟩ 0 ⟨⟨1, 1, 0, []⟩, .png⟩ .png =
        some pdfDoc2 ∧
      pdfDoc2.pages[0]? =
        some ⟨pageRot90.width, pageRot90.height, 0,
          [.imageDraw ⟨⟨1, 1, 0, []⟩, .png⟩ 0 0 pageRot90.width
            pageRot90.height]⟩ ∧
      (∀ q, pdfDoc2.pages[0]? = some q →
        q.rotation = 0 ∧ q.width = pageRot90.width ∧
          q.height = pageRot90.height) ∧
      (∀ j, j ≠ 0 →
        pdfDoc2.pages[j]? = (⟨[pageRot90]⟩ : PDFDocument).pages[j]?) :=
  replacePageWithImage_resets_rotation ⟨[pageRot90]⟩ 0 ⟨⟨1, 1, 0, []⟩, .png⟩
    .png pageRot90 rfl rfl

/-- C1: applying redaction to a page with a non-empty box list replaces that
page by a freshly inserted page of the same declared width and height whose
only content object is a single full-page draw of the rasterized bitmap
encoded as PNG; no opaque original content object remains on the replacement
page. -/
theorem applyRedactionToPage_flattens (pdfDoc : PDFDocument)
    (pdfJsPage : PdfJsPage) (pageIndex : Nat) (boxes : List Box) (page : Page)
    (hget : pdfDoc.pages[pageIndex]? = some page) (hboxes : boxes ≠ []) :
    ∃ pdfDoc2 image,
      applyRedactionToPage pdfDoc pdfJsPage pageIndex boxes = some pdfDoc2 ∧
      image.format = .png ∧
      pdfDoc2.pages.length = pdfDoc.pages.length ∧
      pdfDoc2.pages[pageIndex]? =
        some ⟨page.width, page.height, 0,
          [.imageDraw image 0 0 page.width page.height]⟩ ∧
      (∀ n, ContentObject.original n ∉
        [ContentObject.imageDraw image 0 0 page.width page.height]) := by
  have hlen : pageIndex < pdfDoc.pages.length := by
    rcases List.getElem?_eq_some_iff.mp hget with ⟨h, _⟩
    exact h
  have hne : boxes.isEmpty = false := by
    cases boxes with
    | nil => exact absurd rfl hboxes
    | cons a t => rfl
  refine ⟨⟨pdfDoc.pages.set pageIndex
      ⟨page.width, page.height, 0,
        [.imageDraw (canvasToImageBytes (applyRedactionBoxesToCanvas
          (renderPageToCanvas pdfJsPage RENDER_SCALE) boxes RENDER_SCALE))
          0 0 page.width page.height]⟩⟩,
    canvasToImageBytes (applyRedactionBoxesToCanvas
      (renderPageToCanvas pdfJsPage RENDER_SCALE) boxes RENDER_SCALE),
    ?_, rfl, ?_, ?_, ?_⟩
  · simp only [applyRedactionToPage, hne, Bool.false_eq_true, if_false]
    exact replacePageWithImage_eq pdfDoc pageIndex _ .png page hget rfl
  · simp [List.length_set]
  · exact List.getElem?_set_self (by simpa using hlen)
  · intro n
    simp

/-- Witness for C1: redacting the single page of a one-page document with one
box produces a PNG-backed full-page image replacement. -/
theorem applyRedactionToPage_flattens_witness :
    ∃ pdfDoc2 image,
      applyRedactionToPage ⟨[pageA]⟩ pjsLetter 0 [box1] = some pdfDoc2 ∧
      image.format = .png ∧
      pdfDoc2.pages.length = (⟨[pageA]⟩ : PDFDocument).pages.length ∧
      pdfDoc2.pages[0]? =
        some ⟨pageA.width, pageA.height, 0,
          [.imageDraw image 0 0 pageA.width pageA.height]⟩ ∧
      (∀ n, ContentObject.original n ∉
        [ContentObject.imageDraw image 0 0 pageA.width pageA.height]) :=
  applyRedactionToPage_flattens ⟨[pageA]⟩ pjsLetter 0 [box1] pageA rfl
    (List.cons_ne_nil box1 [])

/-! ### C3: loading encrypted documents -/

/-- Counterexample for C3: a well-formed encrypted input.  `loadPDFDocument`
passes `ignoreEncryption: true` to the engine, so the load returns a
Document instead of failing with `UnsupportedDocument`. -/
theorem loadPDFDocument_encrypted_counterexample :
    loadPDFDocument ⟨true, true, [pageA]⟩ = .ok ⟨[pageA]⟩ ∧
      ∀ e, loadPDFDocument ⟨true, true, [pageA]⟩ ≠ .error e := by
  constructor
  · rfl
  · intro e
    simp [loadPDFDocument, pdfLibLoad]

/-- C3 as amended: `loadPDFDocument` never surfaces an encryption error — it
is configured with `ignoreEncryption: true`, so every well-formed input
(encrypted or not) loads successfully into a Document. -/
theorem loadPDFDocument_ignores_encryption (data : PDFBytes)
    (h : data.wellFormed = true) :
    loadPDFDocument data = .ok ⟨data.pages⟩ := by
  simp [loadPDFDocument, pdfLibLoad, h]

/-- Witness for the amended C3 at a concrete encrypted input. -/
theorem loadPDFDocument_ignores_encryption_witness :
    loadPDFDocument ⟨true, true, [pageB]⟩ = .ok ⟨[pageB]⟩ :=
  loadPDFDocument_ignores_encryption ⟨true, true, [pageB]⟩ rfl

/-! ### C4: deleting all pages -/

theorem deletePagesGo_range_rev :
    ∀ (n : Nat) (l : List Page), l.length = n →
      deletePagesGo ⟨l⟩ ((List.range n).reverse) = ⟨[]⟩ := by
  intro n
  induction n with
  | zero =>
      intro l hl
      have : l = [] := List.length_eq_zero.mp hl
      subst this
      rfl
  | succ n ih =>
      intro l hl
      rw [List.range_succ, List.reverse_append, List.reverse_singleton,
        List.singleton_append]
      show deletePagesGo
        (if n < (⟨l⟩ : PDFDocument).pages.length then ⟨l.eraseIdx n⟩ else ⟨l⟩)
        ((List.range n).reverse) = ⟨[]⟩
      rw [if_pos (by simp [hl])]
      exact ih (l.eraseIdx n) (by simp [List.length_eraseIdx, hl])

theorem insertionSort_ge_range (n : Nat) :
    List.insertionSort (· ≥ ·) (List.range n) = (List.range n).reverse := by
  apply List.eq_of_perm_of_sorted
    ((List.perm_insertionSort (· ≥ ·) (List.range n)).trans
      (List.reverse_perm (List.range n)).symm)
    (List.sorted_insertionSort (· ≥ ·) (List.range n))
  show List.Pairwise (· ≥ ·) (List.range n).reverse
  rw [List.pairwise_reverse]
  exact (List.pairwise_lt_range n).imp (fun h => le_of_lt h)

/-- Counterexample for C4: requesting deletion of both pages of a two-page
document succeeds and yields a zero-page document — no `CannotDeleteAllPages`
failure exists, and the document is not left unchanged. -/
theorem deletePages_all_counterexample :
    deletePages ⟨[pageA, pageB]⟩ [0, 1] = ⟨[]⟩ ∧
      deletePages ⟨[pageA, pageB]⟩ [0, 1] ≠ ⟨[pageA, pageB]⟩ ∧
      (deletePages ⟨[pageA, pageB]⟩ [0, 1]).pages.length = 0 := by
  refine ⟨rfl, ?_, rfl⟩
  intro h
  exact absurd (congrArg (fun d => d.pages.length) h) (by decide)

/-- C4 as amended: the core delete operation performs no all-pages check —
deleting every index of a document empties it without error.  Only the
UI-level single-page delete handler refuses, and only when one page remains:
with two or more pages, `handleDeletePage` delegates to `deletePages`
unconditionally. -/
theorem deletePages_all_pages_empties_document :
    (∀ pdfDoc : PDFDocument,
        deletePages pdfDoc (List.range pdfDoc.pages.length) = ⟨[]⟩) ∧
      (∀ (pdfDoc : PDFDocument) (i : Nat), pdfDoc.pages.length ≤ 1 →
        handleDeletePage pdfDoc i = pdfDoc) ∧
      (∀ (pdfDoc : PDFDocument) (i : Nat), 1 < pdfDoc.pages.length →
        handleDeletePage pdfDoc i = deletePages pdfDoc [i]) := by
  refine ⟨?_, ?_, ?_⟩
  · intro pdfDoc
    rw [deletePages, insertionSort_ge_range]
    exact deletePagesGo_range_rev pdfDoc.pages.length pdfDoc.pages rfl
  · intro pdfDoc i h
    simp [handleDeletePage, h]
  · intro pdfDoc i h
    simp [handleDeletePage, Nat.not_le.mpr h]

/-- Witness for the amended C4: a one-page document is protected by the UI
handler, a two-page document is not, and deleting the full range of a
two-page document empties it. -/
theorem deletePages_all_pages_empties_document_witness :
    deletePages ⟨[pageA, pageB]⟩
        (List.range (⟨[pageA, pageB]⟩ : PDFDocument).pages.length) = ⟨[]⟩ ∧
      handleDeletePage ⟨[pageA]⟩ 0 = ⟨[pageA]⟩ ∧
      handleDeletePage ⟨[pageA, pageB]⟩ 0 = deletePages ⟨[pageA, pageB]⟩ [0] :=
  ⟨deletePages_all_pages_empties_document.1 ⟨[pageA, pageB]⟩,
    deletePages_all_pages_empties_document.2.1 ⟨[pageA]⟩ 0 (by decide),
    deletePages_all_pages_empties_document.2.2 ⟨[pageA, pageB]⟩ 0 (by decide)⟩

/-! ### C5: extraction order -/

/-- Counterexample for C5: extracting pages `[2, 0]` from a three-page
document returns pages `[0, 2]` in ascending index order, not the requested
order `[2, 0]`. -/
theorem extractPages_order_counterexample :
    extractPages docABC [2, 0] = some ⟨[pageA, pageC]⟩ ∧
      (⟨[pageA, pageC]⟩ : PDFDocument) ≠ ⟨[pageC, pageA]⟩ := by
  constructor
  · rfl
  · intro h
    have h2 : pageA = pageC := by
      have := congrArg PDFDocument.pages h
      exact (List.cons.injEq _ _ _ _).mp this |>.1
    have h3 : (0 : Nat) = 2 := by
      have hc := congrArg Page.content h2
      simp [pageA, pageC] at hc
    exact absurd h3 (by decide)

/-- C5 as amended: `extractPages` returns a new document containing copies of
exactly the requested pages (multiset equality, duplicates preserved), but
always in ascending index order — a non-ascending requested order is not
preserved. -/
theorem extractPages_sorted_ascending (pdfDoc : PDFDocument) (l : List Nat)
    (h : ∀ i ∈ l, i < pdfDoc.pages.length) :
    extractPages pdfDoc l =
      some ⟨(List.insertionSort (· ≤ ·) l).map
        (fun i => pdfDoc.pages.getD i default)⟩ ∧
      (List.insertionSort (· ≤ ·) l).Perm l ∧
      List.Sorted (· ≤ ·) (List.insertionSort (· ≤ ·) l) := by
  refine ⟨?_, List.perm_insertionSort _ l, List.sorted_insertionSort _ l⟩
  have hmap := mapOption_eq_some_map (fun i => pdfDoc.pages[i]?)
    (fun i => pdfDoc.pages.getD i default) (List.insertionSort (· ≤ ·) l)
    (by
      intro i hi
      have hmem : i ∈ l := (List.perm_insertionSort (· ≤ ·) l).mem_iff.mp hi
      have hlen := h i hmem
      show pdfDoc.pages[i]? = some (pdfDoc.pages.getD i default)
      rw [List.getElem?_eq_getElem hlen, List.getD_eq_getElem _ _ hlen])
  rw [extractPages, copyPages, hmap]
  rfl

/-- Witness for the amended C5 at the concrete non-ascending request
`[2, 0]`. -/
theorem extractPages_sorted_ascending_witness :
    extractPages docABC [2, 0] =
      some ⟨(List.insertionSort (· ≤ ·) [2, 0]).map
        (fun i => docABC.pages.getD i default)⟩ ∧
      (List.insertionSort (· ≤ ·) [2, 0]).Perm [2, 0] ∧
      List.Sorted (· ≤ ·) (List.insertionSort (· ≤ ·) [2, 0]) :=
  extractPages_sorted_ascending docABC [2, 0] (by decide)

/-! ### C2: batch redaction failure behaviour -/

theorem applyRedactionsGo_abort (rasterOk : Nat → Bool)
    (pjs : Nat → PdfJsPage) (r : List (Nat × List Box)) (j : Nat)
    (hj : (boxesFor r j).isEmpty = false) (hfail : rasterOk j = false)
    (l2 : List Nat) :
    ∀ (l1 : List Nat) (pdfDoc pdfDoc1 : PDFDocument),
      applyRedactionsGo rasterOk pjs r pdfDoc l1 = (pdfDoc1, none) →
      applyRedactionsGo rasterOk pjs r pdfDoc (l1 ++ j :: l2) =
        (pdfDoc1, some j) := by
  intro l1
  induction l1 with
  | nil =>
      intro pdfDoc pdfDoc1 h1
      have hd : pdfDoc = pdfDoc1 := by
        simpa [applyRedactionsGo] using congrArg Prod.fst h1
      subst hd
      simp [applyRedactionsGo, hj, hfail]
  | cons a t ih =>
      intro pdfDoc pdfDoc1 h1
      rw [List.cons_append]
      by_cases ha : (boxesFor r a).isEmpty
      · simp only [applyRedactionsGo, ha, if_true] at h1 ⊢
        exact ih pdfDoc pdfDoc1 h1
      · rw [Bool.not_eq_true] at ha
        by_cases hb : rasterOk a
        · cases heq : applyRedactionToPage pdfDoc (pjs a) a (boxesFor r a) with
          | some pdfDoc2 =>
              simp only [applyRedactionsGo, ha, Bool.false_eq_true, if_false,
                hb, if_true, heq] at h1 ⊢
              exact ih pdfDoc2 pdfDoc1 h1
          | none =>
              simp only [applyRedactionsGo, ha, Bool.false_eq_true, if_false,
                hb, if_true, heq] at h1
              exact absurd (congrArg Prod.snd h1) (by simp)
        · rw [Bool.not_eq_true] at hb
          simp only [applyRedactionsGo, ha, Bool.false_eq_true, if_false,
            hb] at h1
          exact absurd (congrArg Prod.snd h1) (by simp)

/-- Counterexample for C2: pages 0 and 2 both carry boxes; rasterization
fails only for page 2.  Because processing is descending and there is no
per-page error handling, the whole batch rejects at page 2: page 0 — whose
rasterization would have succeeded — is left unredacted (its content is
still the original object), and the outcome is one batch-level error, not a
page-by-page success report. -/
theorem applyRedactions_abort_counterexample :
    applyRedactions (fun i => !(i == 2)) (fun _ => pjsLetter) docABC
        [(0, [box1]), (2, [box1])] = (docABC, some 2) ∧
      (docABC.pages.getD 0 default).content = [.original 0] := by
  exact ⟨rfl, rfl⟩

/-- C2 as amended: there is no page-scoped error handling in
`applyRedactions`.  Pages are processed in descending index order; when
rasterization fails for page `j`, every page processed before `j` (higher
indices, the successful prefix `l1`) keeps its redaction, every page after
`j` in processing order is left untouched, and the call rejects with the
single failing page instead of reporting per-page success/failure. -/
theorem applyRedactions_aborts_batch_on_raster_failure
    (rasterOk : Nat → Bool) (pjs : Nat → PdfJsPage)
    (r : List (Nat × List Box)) (pdfDoc pdfDoc1 : PDFDocument)
    (l1 l2 : List Nat) (j : Nat)
    (hsplit : (List.insertionSort (· ≤ ·) (r.map Prod.fst)).reverse =
      l1 ++ j :: l2)
    (h1 : applyRedactionsGo rasterOk pjs r pdfDoc l1 = (pdfDoc1, none))
    (hj : (boxesFor r j).isEmpty = false) (hfail : rasterOk j = false) :
    applyRedactions rasterOk pjs pdfDoc r = (pdfDoc1, some j) := by
  rw [applyRedactions]
  show applyRedactionsGo rasterOk pjs r pdfDoc
    (List.insertionSort (· ≤ ·) (r.map Prod.fst)).reverse = (pdfDoc1, some j)
  rw [hsplit]
  exact applyRedactionsGo_abort rasterOk pjs r j hj hfail l2 l1 pdfDoc
    pdfDoc1 h1

/-- Witness for the amended C2: page 2 redacts successfully, then page 0
fails; the batch result keeps page 2 redacted and reports the single failing
page 0. -/
theorem applyRedactions_aborts_batch_on_raster_failure_witness :
    ∃ pdfDoc1,
      applyRedactionsGo (fun i => !(i == 0)) (fun _ => pjsLetter)
        [(0, [box1]), (2, [box1])] docABC [2] = (pdfDoc1, none) ∧
      applyRedactions (fun i => !(i == 0)) (fun _ => pjsLetter) docABC
        [(0, [box1]), (2, [box1])] = (pdfDoc1, some 0) := by
  refine ⟨_, rfl, ?_⟩
  exact applyRedactions_aborts_batch_on_raster_failure
    (fun i => !(i == 0)) (fun _ => pjsLetter) [(0, [box1]), (2, [box1])]
    docABC _ [2] [] 0 rfl rfl rfl rfl

/-! ### C8: box validation and clipping -/

/-- Counterexample for C8: a box overhanging the left page edge.  The
validated box is not the geometric intersection with the page: the code
shifts the box to x = 0 and keeps its full width 20, while the intersection
has width 10. -/
theorem validateRedactionBoxes_clip_counterexample :
    validateRedactionBoxes [⟨-10, 0, 20, 20⟩] 100 100 = [⟨0, 0, 20, 20⟩] ∧
      clipToPageSpec ⟨-10, 0, 20, 20⟩ 100 100 = ⟨0, 0, 10, 20⟩ ∧
      (⟨0, 0, 20, 20⟩ : Box) ≠ ⟨0, 0, 10, 20⟩ := by
  have h1 : max (0 : ℚ) (-10) = 0 := max_eq_left (by norm_num)
  have h2 : max (0 : ℚ) 0 = 0 := max_eq_left (by norm_num)
  have h3 : min (20 : ℚ) (100 - 0) = 20 := min_eq_left (by norm_num)
  have h4 : min (100 : ℚ) (-10 + 20) = 10 := by
    rw [min_eq_right (by norm_num)]
    norm_num
  have h5 : min (100 : ℚ) (0 + 20) = 20 := by
    rw [min_eq_right (by norm_num)]
    norm_num
  refine ⟨?_, ?_, ?_⟩
  · norm_num [validateRedactionBoxes, clampBox, h1, h2, h3]
  · norm_num [clipToPageSpec, h1, h2, h4, h5]
  · intro h
    have := congrArg Box.width h
    norm_num at this
/-- C8 as amended: `validateRedactionBoxes` removes every box without
positive width and height, and every returned box has positive size and lies
inside `[0, pageWidth] × [0, pageHeight]`; the per-box clamp equals the
geometric intersection with the page only when the box's origin is
nonnegative (boxes overhanging the left or top edge are shifted inside with
their size capped by the page, which can cover more than the intersection);
and the redaction pipeline never invokes this validation —
`applyRedactionToPage` paints the raw boxes, merely scaled by
`RENDER_SCALE`. -/
theorem validateRedactionBoxes_amended :
    (∀ (boxes : List Box) (w h : ℚ) (b : Box),
        b ∈ validateRedactionBoxes boxes w h →
        0 < b.width ∧ 0 < b.height ∧ 0 ≤ b.x ∧ 0 ≤ b.y ∧
          b.x + b.width ≤ w ∧ b.y + b.height ≤ h) ∧
      (∀ (b : Box) (w h : ℚ), 0 ≤ b.x → 0 ≤ b.y →
        clampBox b w h = clipToPageSpec b w h) ∧
      (∀ (pdfDoc : PDFDocument) (pjs : PdfJsPage) (i : Nat)
          (boxes : List Box), boxes ≠ [] →
        applyRedactionToPage pdfDoc pjs i boxes =
          replacePageWithImage pdfDoc i
            ⟨⟨pjs.width * RENDER_SCALE, pjs.height * RENDER_SCALE, pjs.raster,
              boxes.map (scaleBox RENDER_SCALE)⟩, .png⟩ .png) := by
  refine ⟨?_, ?_, ?_⟩
  · intro boxes w h b hb
    rw [validateRedactionBoxes, List.mem_filter] at hb
    obtain ⟨hmem, hpos⟩ := hb
    rw [Bool.and_eq_true, decide_eq_true_eq, decide_eq_true_eq] at hpos
    obtain ⟨hw, hh⟩ := hpos
    rw [List.mem_map] at hmem
    obtain ⟨b0, _, hb0⟩ := hmem
    subst hb0
    refine ⟨hw, hh, le_max_left 0 b0.x, le_max_left 0 b0.y, ?_, ?_⟩
    · have := min_le_right b0.width (w - max 0 b0.x)
      show max 0 b0.x + min b0.width (w - max 0 b0.x) ≤ w
      linarith
    · have := min_le_right b0.height (h - max 0 b0.y)
      show max 0 b0.y + min b0.height (h - max 0 b0.y) ≤ h
      linarith
  · intro b w h hx hy
    simp only [clampBox, clipToPageSpec, max_eq_right hx, max_eq_right hy,
      Box.mk.injEq, true_and]
    constructor
    · rw [← min_sub_sub_right, add_sub_cancel_left, min_comm]
    · rw [← min_sub_sub_right, add_sub_cancel_left, min_comm]
  · intro pdfDoc pjs i boxes hboxes
    have hne : boxes.isEmpty = false := by
      cases boxes with
      | nil => exact absurd rfl hboxes
      | cons a t => rfl
    simp only [applyRedactionToPage, hne, Bool.false_eq_true, if_false]
    simp [renderPageToCanvas, applyRedactionBoxesToCanvas, canvasToImageBytes]

/-- Witness for the amended C8: for a box with nonnegative origin the clamp
agrees with the geometric intersection. -/
theorem validateRedactionBoxes_amended_witness :
    clampBox ⟨0, 0, 5, 5⟩ 10 10 = clipToPageSpec ⟨0, 0, 5, 5⟩ 10 10 :=
  validateRedactionBoxes_amended.2.1 ⟨0, 0, 5, 5⟩ 10 10 (le_refl 0) (le_refl 0)

/-! ### C9: stale render completion -/

theorem processRenderQueueGo_renderedPages (s : ViewerState) :
    ∀ q : List Nat, (processRenderQueueGo s q).renderedPages =
      s.renderedPages := by
  intro q
  induction q with
  | nil => rfl
  | cons p rest ih =>
      by_cases h : p ∈ s.renderedPages
      · simp [processRenderQueueGo, h, ih]
      · simp [processRenderQueueGo, h]

theorem processRenderQueueGo_queue_suffix (s : ViewerState) :
    ∀ q : List Nat, (processRenderQueueGo s q).renderQueue.IsSuffix q := by
  intro q
  induction q with
  | nil => simp [processRenderQueueGo]
  | cons p rest ih =>
      by_cases h : p ∈ s.renderedPages
      · refine List.IsSuffix.trans ?_ (List.suffix_cons p rest)
        simpa [processRenderQueueGo, h] using ih
      · simp only [processRenderQueueGo, h, if_neg h]
        exact List.suffix_cons p rest

/-- Counterexample for C9: queue page 0 (the raster job starts, recording
revision 0), mutate the document (`refresh`, revision becomes 1), then let
the job complete.  Although the job's revision 0 no longer matches the
current revision 1, the completion is not discarded: page 0 is transitioned
into `renderedPages`. -/
theorem completeRender_stale_counterexample :
    (refresh (queueRender initViewer 0) []).inflight = some (0, 0) ∧
      (refresh (queueRender initViewer 0) []).docRevision = 1 ∧
      (0 : Nat) ≠ 1 ∧
      (completeRender (refresh (queueRender initViewer 0) [])).renderedPages =
        [0] := by
  exact ⟨rfl, rfl, by decide, rfl⟩

/-- C9 as amended: job completion performs no staleness check at all.
Whenever a job is in flight — in particular when its recorded revision
differs from the current document revision — completing it adds its page to
`renderedPages` (the page is treated as rendered, suppressing re-render) and
never requeues it: the queue only shrinks. -/
theorem completeRender_no_staleness_check (s : ViewerState) (p r : Nat)
    (hjob : s.inflight = some (p, r)) (_hstale : r ≠ s.docRevision) :
    p ∈ (completeRender s).renderedPages ∧
      (completeRender s).renderQueue.IsSuffix s.renderQueue := by
  have hmain : completeRender s =
      processRenderQueue
        { s with
          renderedPages := p :: s.renderedPages
          isRendering := false
          inflight := none } := by
    rw [completeRender, hjob]
  rw [hmain, processRenderQueue]
  simp only [Bool.false_eq_true, if_false]
  constructor
  · rw [processRenderQueueGo_renderedPages]
    exact List.mem_cons_self p s.renderedPages
  · exact processRenderQueueGo_queue_suffix _ _

/-- Witness for the amended C9 at the concrete stale trace: the job recorded
revision 0, the document is at revision 1, and completion still marks page 0
rendered without requeuing it. -/
theorem completeRender_no_staleness_check_witness :
    0 ∈ (completeRender (refresh (queueRender initViewer 0) [])).renderedPages ∧
      (completeRender
        (refresh (queueRender initViewer 0) [])).renderQueue.IsSuffix
        (refresh (queueRender initViewer 0) []).renderQueue :=
  completeRender_no_staleness_check (refresh (queueRender initViewer 0) [])
    0 0 rfl (by decide)
